import Mathlib

/-!
# Verification of the comby-store-sqlite persistence layer

A shallow embedding of the SQLite-backed event/command store
(`command.store.sqlite.go`, the event store source, and
`internal/serializer.go`) together with proofs about its specified
behaviour.

Modelling conventions:

* Go byte strings (the opaque payload `data_bytes`) are modelled as
  `List Nat` with each byte below 256; textual columns (uuid, tenant,
  domain, type name) are modelled as Lean `String`.
* The SQLite table is modelled as a list of rows in rowid (insertion)
  order; `SELECT ... LIMIT 1` without `ORDER BY` returns the first row
  in that order.
* `database/sql` failure is modelled with `Except String`.  The
  `schemaReady` flag models whether the backing table exists (a store
  opened read-only skips migration, so its first query can fail).
* The source interpolates caller-supplied values directly into SQL
  text (`fmt.Sprintf("... uuid='%s' ...", v)`).  A value containing a
  single-quote character therefore changes the lexical structure of
  the statement; for a value with an odd number of quote characters
  the statement always has an unterminated string literal and SQLite
  rejects it.  The semantic model returns an error whenever an
  embedded value contains a quote character; every concrete theorem
  that exercises this region uses a value with a single quote, where
  the error outcome is exact.
-/

namespace CombyStoreSQLite

/-- Go `[]byte` payloads: byte lists (each entry is below 256 for real data). -/
abbrev Bytes := List Nat

/-- The single-quote character (ASCII 39). -/
def quoteChar : Char := Char.ofNat 39

/-- The single-quote character as a one-character string, used when
reproducing the SQL text the source builds by interpolation. -/
def sq : String := String.mk [quoteChar]

/-- Does a string contain a single-quote character?  Values with a quote
break the interpolated SQL statements built by the source. -/
def strHasQuote (s : String) : Bool := s.data.any (fun c => c.toNat == 39)

/-! ## Hex codec (`encoding/hex`)

`hex.EncodeToString` writes two lowercase hex digits per byte;
`hex.DecodeString` inverts it and fails on odd length or non-hex input.
The encoded text is modelled as the list of ASCII codes of its digits. -/

/-- ASCII code of the lowercase hex digit for `n < 16` (as in `encoding/hex`). -/
def hexDigit (n : Nat) : Nat := if n < 10 then 48 + n else 87 + n

/-- Numeric value of an ASCII hex digit, accepting `0-9`, `a-f`, `A-F`
(as `hex.DecodeString` does); `none` on any other character. -/
def hexDigitVal (c : Nat) : Option Nat :=
  if 48 ≤ c ∧ c ≤ 57 then some (c - 48)
  else if 97 ≤ c ∧ c ≤ 102 then some (c - 87)
  else if 65 ≤ c ∧ c ≤ 70 then some (c - 55)
  else none

/-- `hex.EncodeToString`: two lowercase digits per byte. -/
def hexEncode : Bytes → Bytes
  | [] => []
  | b :: bs => hexDigit (b / 16) :: hexDigit (b % 16) :: hexEncode bs

/-- `hex.DecodeString`: parse pairs of hex digits; fail on odd length or
an invalid digit. -/
def hexDecode : Bytes → Option Bytes
  | [] => some []
  | [_] => none
  | c1 :: c2 :: rest => do
    let h ← hexDigitVal c1
    let l ← hexDigitVal c2
    let tail ← hexDecode rest
    pure ((h * 16 + l) :: tail)

theorem hexDigitVal_hexDigit {n : Nat} (h : n < 16) :
    hexDigitVal (hexDigit n) = some n := by
  rcases Nat.lt_or_ge n 10 with h10 | h10
  · rw [hexDigit, if_pos h10, hexDigitVal, if_pos ⟨by omega, by omega⟩,
      Nat.add_sub_cancel_left]
  · rw [hexDigit, if_neg (by omega), hexDigitVal, if_neg (by omega),
      if_pos ⟨by omega, by omega⟩, Nat.add_sub_cancel_left]

theorem hexDecode_hexEncode {bs : Bytes} (h : ∀ b ∈ bs, b < 256) :
    hexDecode (hexEncode bs) = some bs := by
  induction bs with
  | nil => rfl
  | cons b rest ih =>
    have hb : b < 256 := h b (List.mem_cons_self b rest)
    have hhi : b / 16 < 16 := by omega
    have hlo : b % 16 < 16 := Nat.mod_lt _ (by omega)
    have hrest : hexDecode (hexEncode rest) = some rest :=
      ih (fun x hx => h x (List.mem_cons_of_mem b hx))
    have hb' : b / 16 * 16 + b % 16 = b := by omega
    simp [hexEncode, hexDecode, hexDigitVal_hexDigit hhi,
      hexDigitVal_hexDigit hlo, hrest, hb', Bind.bind, Option.bind]

theorem hexEncode_eq_nil_iff {bs : Bytes} : hexEncode bs = [] ↔ bs = [] := by
  cases bs <;> simp [hexEncode]

instance {ε α : Type} [DecidableEq ε] [DecidableEq α] :
    DecidableEq (Except ε α) := fun x y =>
  match x, y with
  | .ok a, .ok b =>
    if h : a = b then .isTrue (by rw [h])
    else .isFalse (by intro he; cases he; exact h rfl)
  | .error a, .error b =>
    if h : a = b then .isTrue (by rw [h])
    else .isFalse (by intro he; cases he; exact h rfl)
  | .ok _, .error _ => .isFalse (fun h => Except.noConfusion h)
  | .error _, .ok _ => .isFalse (fun h => Except.noConfusion h)

/-! ## Data model

`internal.Event` / `internal.Command` are the persisted row shapes
(`internal` package).  The surrogate `id` column is assigned by SQLite
at insert and dropped again by the row-to-record conversion, so rows
are modelled without it; rowid order is the list order. -/

/-- Persisted event row (`internal.Event` without the surrogate id). -/
structure DbEvent where
  instanceId : Int
  uuid : String
  tenantUuid : String
  commandUuid : String
  domain : String
  aggregateUuid : String
  version : Int
  createdAt : Int
  dataType : String
  dataBytes : Bytes
deriving Repr, DecidableEq

/-- Persisted command row (`internal.Command` without the surrogate id).
`reqCtx` holds the serialized request context text. -/
structure DbCommand where
  instanceId : Int
  uuid : String
  tenantUuid : String
  domain : String
  createdAt : Int
  dataType : String
  dataBytes : Bytes
  reqCtx : String
deriving Repr, DecidableEq

/-- Modelled from the spec: the structured payload object
(`comby.Event.GetDomainEvt` / `comby.Command.GetDomainCmd`, defined in
the external comby module) is opaque to the store; the store only ever
re-serializes it (`json.Marshal`) and derives a runtime type name from
it, so it is represented by those two observations. -/
structure DomainObj where
  serialized : Bytes
  typeName : String
deriving Repr, DecidableEq

/-- Modelled from the spec: `comby.BaseEvent` (external comby module),
restricted to the accessor fields the serialization bridge reads. -/
structure BaseEvent where
  instanceId : Int
  eventUuid : String
  tenantUuid : String
  commandUuid : String
  domain : String
  aggregateUuid : String
  version : Int
  createdAt : Int
  domainEvtName : String
  domainEvtBytes : Bytes
  domainEvt : Option DomainObj
deriving Repr, DecidableEq

/-- Modelled from the spec: `comby.BaseCommand` (external comby module),
restricted to the accessor fields the serialization bridge reads.
`reqCtx` is the request-context object, represented by its serialized
text (`none` models a nil pointer, which `internal.Serialize` turns
into empty text). -/
structure BaseCommand where
  instanceId : Int
  commandUuid : String
  tenantUuid : String
  domain : String
  createdAt : Int
  domainCmdName : String
  domainCmdBytes : Bytes
  domainCmd : Option DomainObj
  reqCtx : Option String
deriving Repr, DecidableEq

/-! ## Serialization bridge (`internal/serializer.go`) -/

/-- Payload bytes chosen by `BaseEventToDbEvent`: the already-serialized
bytes, unless a structured object is present, which is then
re-serialized and takes precedence. -/
def eventPayloadBytes (evt : BaseEvent) : Bytes :=
  match evt.domainEvt with
  | some obj => obj.serialized
  | none => evt.domainEvtBytes

/-- Type name chosen by `BaseEventToDbEvent`: the explicit name, falling
back to the structured object's runtime type name when the explicit
name is empty and an object is present. -/
def eventPayloadType (evt : BaseEvent) : String :=
  if evt.domainEvtName = "" then
    match evt.domainEvt with
    | some obj => obj.typeName
    | none => evt.domainEvtName
  else evt.domainEvtName

/-- `internal.BaseEventToDbEvent`. -/
def BaseEventToDbEvent (evt : BaseEvent) : DbEvent :=
  { instanceId := evt.instanceId
    uuid := evt.eventUuid
    tenantUuid := evt.tenantUuid
    commandUuid := evt.commandUuid
    domain := evt.domain
    aggregateUuid := evt.aggregateUuid
    version := evt.version
    createdAt := evt.createdAt
    dataType := eventPayloadType evt
    dataBytes := eventPayloadBytes evt }

/-- `internal.DbEventToBaseEvent`: the structured payload is left unset. -/
def DbEventToBaseEvent (r : DbEvent) : BaseEvent :=
  { instanceId := r.instanceId
    eventUuid := r.uuid
    tenantUuid := r.tenantUuid
    commandUuid := r.commandUuid
    domain := r.domain
    aggregateUuid := r.aggregateUuid
    version := r.version
    createdAt := r.createdAt
    domainEvtName := r.dataType
    domainEvtBytes := r.dataBytes
    domainEvt := none }

/-- Payload bytes chosen by `BaseCommandToDbCommand` (same precedence
rule as for events). -/
def commandPayloadBytes (cmd : BaseCommand) : Bytes :=
  match cmd.domainCmd with
  | some obj => obj.serialized
  | none => cmd.domainCmdBytes

/-- Type name chosen by `BaseCommandToDbCommand`. -/
def commandPayloadType (cmd : BaseCommand) : String :=
  if cmd.domainCmdName = "" then
    match cmd.domainCmd with
    | some obj => obj.typeName
    | none => cmd.domainCmdName
  else cmd.domainCmdName

/-- `internal.BaseCommandToDbCommand`; `internal.Serialize` of a nil
request context yields empty text. -/
def BaseCommandToDbCommand (cmd : BaseCommand) : DbCommand :=
  { instanceId := cmd.instanceId
    uuid := cmd.commandUuid
    tenantUuid := cmd.tenantUuid
    domain := cmd.domain
    createdAt := cmd.createdAt
    dataType := commandPayloadType cmd
    dataBytes := commandPayloadBytes cmd
    reqCtx := (cmd.reqCtx).getD "" }

/-- `internal.DbCommandToBaseCommand`: the structured payload is left
unset; the request-context text is eagerly turned back into a context
value (the zero value when the text is empty, as the source scans into
a fresh `comby.RequestContext`). -/
def DbCommandToBaseCommand (r : DbCommand) : BaseCommand :=
  { instanceId := r.instanceId
    commandUuid := r.uuid
    tenantUuid := r.tenantUuid
    domain := r.domain
    createdAt := r.createdAt
    domainCmdName := r.dataType
    domainCmdBytes := r.dataBytes
    domainCmd := none
    reqCtx := some r.reqCtx }

/-! ## Payload cipher adapter -/

/-- The injected encrypt/decrypt capability (`comby.CryptoService`):
both directions are fallible. -/
structure CryptoService where
  encrypt : Bytes → Except String Bytes
  decrypt : Bytes → Except String Bytes

/-- `eventStoreSQLite.encryptDomainData`: requires a configured cipher
and a non-empty payload, encrypts, then stores the ciphertext
hex-encoded. -/
def encryptDomainData (crypto : Option CryptoService) (r : DbEvent) :
    Except String DbEvent :=
  match crypto with
  | none => .error "crypto service is nil"
  | some cs =>
    if r.dataBytes.length < 1 then .error "domain data is empty"
    else
      match cs.encrypt r.dataBytes with
      | .error e => .error ("failed to encrypt domain data: " ++ e)
      | .ok enc => .ok { r with dataBytes := hexEncode enc }

/-- `eventStoreSQLite.decryptDomainData`: hex-decode, reject empty
ciphertext, then decrypt. -/
def decryptDomainData (crypto : Option CryptoService) (r : DbEvent) :
    Except String DbEvent :=
  match crypto with
  | none => .error "crypto service is nil"
  | some cs =>
    match hexDecode r.dataBytes with
    | none => .error "failed to decode hex domain data"
    | some enc =>
      if enc.length < 1 then .error "encrypted domain data is empty"
      else
        match cs.decrypt enc with
        | .error e => .error ("failed to decrypt domain data: " ++ e)
        | .ok dec => .ok { r with dataBytes := dec }

/-! ## Store state and options -/

/-- The options both store types react to (`comby.EventStoreOptions` /
`comby.CommandStoreOptions`, external comby module): read-only mode and
the optional cipher.  The opaque attribute bag is not interpreted by
the store and is omitted. -/
structure StoreOptions where
  readOnly : Bool
  cryptoService : Option CryptoService

/-- Event store contents: rows in rowid (insertion) order.
`schemaReady` records whether the `events` table exists; a store opened
read-only skips migration, so every query against a missing table
fails. -/
structure EventStoreState where
  rows : List DbEvent
  schemaReady : Bool
deriving Repr, DecidableEq

/-- Command store contents, as for `EventStoreState`. -/
structure CommandStoreState where
  rows : List DbCommand
  schemaReady : Bool
deriving Repr, DecidableEq

/-- The state a caller holds after an operation: the returned state on
success, the previous state when the operation failed (a failed
operation commits nothing). -/
def stateAfter {σ : Type} (st : σ) : Except String σ → σ
  | .ok st2 => st2
  | .error _ => st

/-! ## SQL text built by the source

The source interpolates values into SQL text with `fmt.Sprintf`.
These definitions reproduce the exact statement text so that claims
about statement construction can be settled on it. -/

/-- The `'...'`-quoted fragment the source builds for a value: a quote,
the raw value (unescaped), a quote. -/
def sqlQuote (v : String) : String := sq ++ v ++ sq

/-- `eventStoreSQLite.Get` query text. -/
def eventGetQuery (uuid : String) : String :=
  if uuid.length > 0 then
    "SELECT * FROM events WHERE uuid=" ++ sqlQuote uuid ++ " LIMIT 1;"
  else "SELECT * FROM events LIMIT 1;"

/-- `commandStoreSQLite.Delete` query text. -/
def commandDeleteQuery (uuid : String) : String :=
  "DELETE FROM commands WHERE uuid=" ++ sqlQuote uuid ++ ";"

/-- `LIMIT` fragment of `List` (events and commands alike): present
exactly when the limit is non-negative. -/
def listLimitSQL (limit : Int) : String :=
  if limit ≥ 0 then " LIMIT " ++ toString limit else ""

/-- `OFFSET` fragment of `List`: present exactly when the offset is
non-negative. -/
def listOffsetSQL (offset : Int) : String :=
  if offset ≥ 0 then " OFFSET " ++ toString offset else ""

/-- `UPDATE` statement text of `eventStoreSQLite.Update` (whitespace
normalised; parameters are `?` placeholders). -/
def eventUpdateQuery : String :=
  "UPDATE events SET instance_id=?, tenant_uuid=?, command_uuid=?, " ++
  "domain=?, aggregate_uuid=?, version=?, created_at=?, data_type=?, " ++
  "data_bytes=? WHERE uuid=?;"

/-- `UPDATE` statement text of `commandStoreSQLite.Update` (whitespace
normalised).  The source text really contains the stray closing
parenthesis before `WHERE`. -/
def commandUpdateQuery : String :=
  "UPDATE commands SET instance_id=?, tenant_uuid=?, domain=?, " ++
  "created_at=?, data_type=?, data_bytes=?, req_ctx=?) WHERE uuid=?;"

/-- Parenthesis balance of SQL text outside single-quoted literals:
`go depth chars` is `true` when every prefix closes at most as many
parentheses as it opens and the whole text closes all of them.  A
statement failing this check is rejected by the SQLite parser, so
`Prepare` fails on it. -/
def parensBalancedGo : Nat → Bool → List Char → Bool
  | depth, _, [] => depth == 0
  | depth, inStr, c :: cs =>
    if c.toNat = 39 then parensBalancedGo depth (!inStr) cs
    else if inStr then parensBalancedGo depth inStr cs
    else if c = '(' then parensBalancedGo (depth + 1) inStr cs
    else if c = ')' then
      match depth with
      | 0 => false
      | d + 1 => parensBalancedGo d inStr cs
    else parensBalancedGo depth inStr cs

/-- See `parensBalancedGo`. -/
def parensBalanced (s : String) : Bool := parensBalancedGo 0 false s.data

/-- SQLite lexing of a single-quoted string literal, starting just
after the opening quote: collect characters up to the closing quote,
reading a doubled quote as one escaped quote character; `none` when
the literal is unterminated (the statement is then rejected). -/
def sqlLexLiteral : List Char → Option (List Char)
  | [] => none
  | c :: cs =>
    if c.toNat = 39 then
      match cs with
      | [] => some []
      | c2 :: cs2 =>
        if c2.toNat = 39 then (sqlLexLiteral cs2).map (fun t => c :: t)
        else some []
    else (sqlLexLiteral cs).map (fun t => c :: t)

/-- The value the SQLite lexer reads back out of the fragment the
source embeds for `v` followed by the rest of the statement: the
literal starting after the opening quote of `sqlQuote v`. -/
def lexedEmbeddedValue (v : String) (restOfStatement : String) : Option String :=
  (sqlLexLiteral (v.data ++ sq.data ++ restOfStatement.data)).map String.mk

/-! ## Event store operations -/

/-- `eventStoreSQLite.Create`.  Guard order follows the source:
read-only, nil record, empty uuid; then record-to-row conversion, the
optional encrypt step, and the transactional single-row insert
(modelled as an append in rowid order; the insert fails when the table
is missing). -/
def eventCreate (opts : StoreOptions) (st : EventStoreState)
    (evt : Option BaseEvent) : Except String EventStoreState :=
  if opts.readOnly then .error "failed to create event - instance is readonly"
  else
    match evt with
    | none => .error "failed to create event - event is nil"
    | some e =>
      if e.eventUuid.length < 1 then
        .error "failed to create event - event uuid is invalid"
      else
        let r := BaseEventToDbEvent e
        match (match opts.cryptoService with
               | some _ => encryptDomainData opts.cryptoService r
               | none => .ok r) with
        | .error msg => .error msg
        | .ok r2 =>
          if st.schemaReady then .ok { st with rows := st.rows ++ [r2] }
          else .error "no such table: events"

/-- `eventStoreSQLite.Get`.  An empty uuid filter selects the first row
in rowid order (`LIMIT 1` without `ORDER BY`); a uuid filter selects
the first row with that uuid; no matching row is returned as a
non-error empty result; the optional decrypt step runs on the found
row.  A uuid containing a quote character yields a malformed
interpolated statement (see the module comment), modelled as a query
error. -/
def eventGet (opts : StoreOptions) (st : EventStoreState) (uuid : String) :
    Except String (Option BaseEvent) :=
  if ¬ st.schemaReady then .error "no such table: events"
  else if uuid.length = 0 then
    match st.rows.head? with
    | none => .ok none
    | some r =>
      match (match opts.cryptoService with
             | some _ => decryptDomainData opts.cryptoService r
             | none => .ok r) with
      | .error msg => .error msg
      | .ok r2 => .ok (some (DbEventToBaseEvent r2))
  else if strHasQuote uuid then .error "SQL logic error: unrecognized token"
  else
    match st.rows.find? (fun r => r.uuid == uuid) with
    | none => .ok none
    | some r =>
      match (match opts.cryptoService with
             | some _ => decryptDomainData opts.cryptoService r
             | none => .ok r) with
      | .error msg => .error msg
      | .ok r2 => .ok (some (DbEventToBaseEvent r2))

/-- `comby.EventStoreListOptions` with the defaults the source installs
before applying caller options. -/
structure EventListOptions where
  tenantUuid : String := ""
  aggregateUuid : String := ""
  dataType : String := ""
  domains : List String := []
  before : Int := -1
  after : Int := -1
  offset : Int := 0
  limit : Int := 100
  orderBy : String := "created_at"
  ascending : Bool := true

/-- The WHERE predicate `eventStoreSQLite.List` builds: equality filters
for tenant, aggregate and type name when non-empty, membership for the
domain set when non-empty, strict bounds on the creation timestamp when
non-negative, combined with AND. -/
def eventMatches (o : EventListOptions) (r : DbEvent) : Bool :=
  (o.tenantUuid.length == 0 || r.tenantUuid == o.tenantUuid) &&
  (o.aggregateUuid.length == 0 || r.aggregateUuid == o.aggregateUuid) &&
  (o.dataType.length == 0 || r.dataType == o.dataType) &&
  (o.domains.isEmpty || o.domains.contains r.domain) &&
  (o.before < 0 || r.createdAt < o.before) &&
  (o.after < 0 || r.createdAt > o.after)

/-- Do any of the values `eventStoreSQLite.List` interpolates into the
statement contain a quote character? -/
def eventListHasQuote (o : EventListOptions) : Bool :=
  strHasQuote o.tenantUuid || strHasQuote o.aggregateUuid ||
  strHasQuote o.dataType || o.domains.any strHasQuote

/-- `eventStoreSQLite.List`.  Mirrors the source: a count query for the
total ignoring pagination, then the page query with ORDER BY, LIMIT
and OFFSET fragments (each LIMIT/OFFSET fragment present exactly when
its value is non-negative; an OFFSET fragment without a LIMIT fragment
is a SQLite syntax error), then the optional per-row decrypt step and
the row-to-record conversion.  Ordering is modelled for the default
`created_at` column (and for an empty column name, which suppresses
ORDER BY); no claim exercises other column names. -/
def eventList (opts : StoreOptions) (st : EventStoreState)
    (o : EventListOptions) : Except String (List BaseEvent × Nat) :=
  if ¬ st.schemaReady then .error "no such table: events"
  else if eventListHasQuote o then .error "SQL logic error: unrecognized token"
  else
    let matching := st.rows.filter (eventMatches o)
    let total := matching.length
    if o.limit < 0 ∧ 0 ≤ o.offset then
      .error "SQL logic error: near OFFSET: syntax error"
    else
      match (if o.orderBy = "" then .ok matching
             else if o.orderBy = "created_at" then
               if o.ascending then
                 .ok (matching.mergeSort (fun a b => a.createdAt ≤ b.createdAt))
               else
                 .ok (matching.mergeSort (fun a b => b.createdAt ≤ a.createdAt))
             else (.error "order column not modelled" :
               Except String (List DbEvent))) with
      | .error msg => .error msg
      | .ok sorted =>
        let afterOffset := if 0 ≤ o.offset then sorted.drop o.offset.toNat else sorted
        let page := if 0 ≤ o.limit then afterOffset.take o.limit.toNat else afterOffset
        match (match opts.cryptoService with
               | some _ => page.mapM (decryptDomainData opts.cryptoService)
               | none => .ok page) with
        | .error msg => .error msg
        | .ok decrypted => .ok (decrypted.map DbEventToBaseEvent, total)

/-- `eventStoreSQLite.Update`.  Guards as for Create, then conversion
and the optional encrypt step, then a parameterized UPDATE of every
field except the uuid on each row matching the uuid (zero matching
rows still succeed).  The statement is prepared first: a statement
failing the parenthesis balance check is rejected there. -/
def eventUpdate (opts : StoreOptions) (st : EventStoreState)
    (evt : Option BaseEvent) : Except String EventStoreState :=
  if opts.readOnly then .error "failed to update event - instance is readonly"
  else
    match evt with
    | none => .error "failed to update event - event is nil"
    | some e =>
      if e.eventUuid.length < 1 then
        .error "failed to update event - event uuid is invalid"
      else
        let r := BaseEventToDbEvent e
        match (match opts.cryptoService with
               | some _ => encryptDomainData opts.cryptoService r
               | none => .ok r) with
        | .error msg => .error msg
        | .ok r2 =>
          if ¬ parensBalanced eventUpdateQuery then
            .error "SQL logic error: syntax error"
          else if st.schemaReady then
            let newRows := st.rows.map (fun row =>
              if row.uuid == r2.uuid then { r2 with uuid := row.uuid } else row)
            .ok { st with rows := newRows }
          else .error "no such table: events"

/-- `eventStoreSQLite.Delete`: read-only and empty-uuid guards, then an
interpolated DELETE by uuid (all rows with the uuid are removed;
deleting a non-existent uuid succeeds). -/
def eventDelete (opts : StoreOptions) (st : EventStoreState)
    (uuid : String) : Except String EventStoreState :=
  if opts.readOnly then .error "failed to delete event - instance is readonly"
  else if uuid.length < 1 then
    .error "failed to delete event - event uuid is invalid"
  else if ¬ st.schemaReady then .error "no such table: events"
  else if strHasQuote uuid then .error "SQL logic error: unrecognized token"
  else .ok { st with rows := st.rows.filter (fun r => ¬ r.uuid == uuid) }

/-- `eventStoreSQLite.Total`: `SELECT COUNT(id)`, with any query
failure swallowed into a zero count. -/
def eventTotal (st : EventStoreState) : Nat :=
  if st.schemaReady then st.rows.length else 0

/-- The diagnostic snapshot `Info` returns
(`comby.EventStoreInfoModel` / `comby.CommandStoreInfoModel`). -/
structure InfoModel where
  storeType : String
  lastItemCreatedAt : Int
  numItems : Nat
  connectionInfo : String
deriving Repr, DecidableEq

/-- `eventStoreSQLite.Info`: count query and
`COALESCE(MAX(created_at), 0)` query; a failure of either query is
returned as an error. -/
def eventInfo (path : String) (st : EventStoreState) :
    Except String InfoModel :=
  if ¬ st.schemaReady then .error "no such table: events"
  else
    .ok { storeType := "sqlite"
          lastItemCreatedAt := ((st.rows.map (fun r => r.createdAt)).max?).getD 0
          numItems := st.rows.length
          connectionInfo := path }

/-! ## Command store operations -/

/-- `commandStoreSQLite.Create`.  Same guard order as the event store;
note that the source performs no encrypt step for commands - the
configured cipher is never consulted. -/
def commandCreate (opts : StoreOptions) (st : CommandStoreState)
    (cmd : Option BaseCommand) : Except String CommandStoreState :=
  if opts.readOnly then .error "failed to create command - instance is readonly"
  else
    match cmd with
    | none => .error "failed to create command - command is nil"
    | some c =>
      if c.commandUuid.length < 1 then
        .error "failed to create command - command uuid is invalid"
      else
        let r := BaseCommandToDbCommand c
        if st.schemaReady then .ok { st with rows := st.rows ++ [r] }
        else .error "no such table: commands"

/-- `commandStoreSQLite.Get`.  As for the event store, but with no
decrypt step. -/
def commandGet (st : CommandStoreState) (uuid : String) :
    Except String (Option BaseCommand) :=
  if ¬ st.schemaReady then .error "no such table: commands"
  else if uuid.length = 0 then .ok (st.rows.head?.map DbCommandToBaseCommand)
  else if strHasQuote uuid then .error "SQL logic error: unrecognized token"
  else .ok ((st.rows.find? (fun r => r.uuid == uuid)).map DbCommandToBaseCommand)

/-- `comby.CommandStoreListOptions` with the defaults the source
installs; commands filter on a single domain name by equality. -/
structure CommandListOptions where
  tenantUuid : String := ""
  domain : String := ""
  dataType : String := ""
  before : Int := -1
  after : Int := -1
  offset : Int := 0
  limit : Int := 100
  orderBy : String := "created_at"
  ascending : Bool := true

/-- The WHERE predicate `commandStoreSQLite.List` builds. -/
def commandMatches (o : CommandListOptions) (r : DbCommand) : Bool :=
  (o.tenantUuid.length == 0 || r.tenantUuid == o.tenantUuid) &&
  (o.domain.length == 0 || r.domain == o.domain) &&
  (o.dataType.length == 0 || r.dataType == o.dataType) &&
  (o.before < 0 || r.createdAt < o.before) &&
  (o.after < 0 || r.createdAt > o.after)

/-- Do any of the values `commandStoreSQLite.List` interpolates contain
a quote character? -/
def commandListHasQuote (o : CommandListOptions) : Bool :=
  strHasQuote o.tenantUuid || strHasQuote o.domain || strHasQuote o.dataType

/-- `commandStoreSQLite.List`: as `eventList`, with no decrypt step. -/
def commandList (st : CommandStoreState) (o : CommandListOptions) :
    Except String (List BaseCommand × Nat) :=
  if ¬ st.schemaReady then .error "no such table: commands"
  else if commandListHasQuote o then .error "SQL logic error: unrecognized token"
  else
    let matching := st.rows.filter (commandMatches o)
    let total := matching.length
    if o.limit < 0 ∧ 0 ≤ o.offset then
      .error "SQL logic error: near OFFSET: syntax error"
    else
      match (if o.orderBy = "" then .ok matching
             else if o.orderBy = "created_at" then
               if o.ascending then
                 .ok (matching.mergeSort (fun a b => a.createdAt ≤ b.createdAt))
               else
                 .ok (matching.mergeSort (fun a b => b.createdAt ≤ a.createdAt))
             else (.error "order column not modelled" :
               Except String (List DbCommand))) with
      | .error msg => .error msg
      | .ok sorted =>
        let afterOffset := if 0 ≤ o.offset then sorted.drop o.offset.toNat else sorted
        let page := if 0 ≤ o.limit then afterOffset.take o.limit.toNat else afterOffset
        .ok (page.map DbCommandToBaseCommand, total)

/-- `commandStoreSQLite.Update`.  Guards as for Create, then the
UPDATE statement is prepared - and its text (`commandUpdateQuery`)
contains a stray closing parenthesis before WHERE, so preparing always
fails; the transaction never commits. -/
def commandUpdate (opts : StoreOptions) (st : CommandStoreState)
    (cmd : Option BaseCommand) : Except String CommandStoreState :=
  if opts.readOnly then .error "failed to update command - instance is readonly"
  else
    match cmd with
    | none => .error "failed to update command - command is nil"
    | some c =>
      if c.commandUuid.length < 1 then
        .error "failed to update command - command uuid is invalid"
      else
        let r := BaseCommandToDbCommand c
        if ¬ parensBalanced commandUpdateQuery then
          .error "SQL logic error: syntax error"
        else if st.schemaReady then
          let newRows := st.rows.map (fun row =>
            if row.uuid == r.uuid then { r with uuid := row.uuid } else row)
          .ok { st with rows := newRows }
        else .error "no such table: commands"

/-- `commandStoreSQLite.Delete`. -/
def commandDelete (opts : StoreOptions) (st : CommandStoreState)
    (uuid : String) : Except String CommandStoreState :=
  if opts.readOnly then .error "failed to delete command - instance is readonly"
  else if uuid.length < 1 then
    .error "failed to delete command - command uuid is invalid"
  else if ¬ st.schemaReady then .error "no such table: commands"
  else if strHasQuote uuid then .error "SQL logic error: unrecognized token"
  else .ok { st with rows := st.rows.filter (fun r => ¬ r.uuid == uuid) }

/-- `commandStoreSQLite.Total`: failures swallowed into zero. -/
def commandTotal (st : CommandStoreState) : Nat :=
  if st.schemaReady then st.rows.length else 0

/-- `commandStoreSQLite.Info`: count query, then
`SELECT MAX(created_at)` with no COALESCE - on an empty table the
maximum is NULL and scanning NULL into an int64 fails, so Info over an
empty command store returns an error. -/
def commandInfo (path : String) (st : CommandStoreState) :
    Except String InfoModel :=
  if ¬ st.schemaReady then .error "no such table: commands"
  else
    match (st.rows.map (fun r => r.createdAt)).max? with
    | none => .error "converting NULL to int64 is unsupported"
    | some m =>
      .ok { storeType := "sqlite"
            lastItemCreatedAt := m
            numItems := st.rows.length
            connectionInfo := path }

/-! ## Helper lemmas and sample values -/

theorem find_append_none {α : Type} (p : α → Bool) {l₁ l₂ : List α}
    (h : l₁.find? p = none) : (l₁ ++ l₂).find? p = l₂.find? p := by
  induction l₁ with
  | nil => simp
  | cons a l ih =>
    cases hpa : p a with
    | true => simp [List.find?_cons, hpa] at h
    | false =>
      simp only [List.find?_cons, hpa] at h
      simpa [List.find?_cons, hpa] using ih h

/-- Sample event record used by concrete witnesses: no structured
payload object, plain ASCII payload bytes. -/
def evtSample : BaseEvent :=
  { instanceId := 1
    eventUuid := "e-1"
    tenantUuid := "t-1"
    commandUuid := "c-1"
    domain := "d"
    aggregateUuid := "a-1"
    version := 1
    createdAt := 1000
    domainEvtName := "T"
    domainEvtBytes := [65]
    domainEvt := none }

/-- Sample command record used by concrete witnesses. -/
def cmdSample : BaseCommand :=
  { instanceId := 1
    commandUuid := "c-1"
    tenantUuid := "t-1"
    domain := "d"
    createdAt := 1000
    domainCmdName := "T"
    domainCmdBytes := [65]
    domainCmd := none
    reqCtx := some "rc" }

/-- Cipher adding one to every byte; its decrypt inverts it on real
byte data. -/
def addCipher : CryptoService :=
  { encrypt := fun bs => .ok (bs.map (fun b => (b + 1) % 256))
    decrypt := fun bs => .ok (bs.map (fun b => (b + 255) % 256)) }

/-- The identity cipher. -/
def idCipher : CryptoService :=
  { encrypt := fun bs => .ok bs, decrypt := fun bs => .ok bs }

/-! ## Claim theorems -/

/-- C7: on a store opened read-only, Create always fails with the
read-only validation error (for both entity kinds and any input
record, including nil), no new state is produced, and the caller's
Total is unchanged. -/
theorem create_readonly_fails :
    ∀ (opts : StoreOptions) (stE : EventStoreState) (stC : CommandStoreState)
      (evt : Option BaseEvent) (cmd : Option BaseCommand),
      opts.readOnly = true →
      eventCreate opts stE evt =
        .error "failed to create event - instance is readonly" ∧
      eventTotal (stateAfter stE (eventCreate opts stE evt)) = eventTotal stE ∧
      commandCreate opts stC cmd =
        .error "failed to create command - instance is readonly" ∧
      commandTotal (stateAfter stC (commandCreate opts stC cmd)) =
        commandTotal stC := by
  intro opts stE stC evt cmd h
  simp [eventCreate, commandCreate, h, stateAfter]

/-- C7 witness: a concrete read-only store. -/
theorem create_readonly_fails_witness :
    eventCreate ⟨true, none⟩ ⟨[], true⟩ (some evtSample) =
      .error "failed to create event - instance is readonly" ∧
    eventTotal (stateAfter ⟨[], true⟩
      (eventCreate ⟨true, none⟩ ⟨[], true⟩ (some evtSample))) =
      eventTotal ⟨[], true⟩ ∧
    commandCreate ⟨true, none⟩ ⟨[], true⟩ (some cmdSample) =
      .error "failed to create command - instance is readonly" ∧
    commandTotal (stateAfter ⟨[], true⟩
      (commandCreate ⟨true, none⟩ ⟨[], true⟩ (some cmdSample))) =
      commandTotal ⟨[], true⟩ :=
  create_readonly_fails ⟨true, none⟩ ⟨[], true⟩ ⟨[], true⟩
    (some evtSample) (some cmdSample) rfl

/-- C5: with a cipher configured, creating an event whose converted
payload is empty is a hard failure: the "domain data is empty" error
is returned before the cipher is consulted (the outcome is the same
for every cipher), no state is produced and Total is unchanged. -/
theorem create_empty_payload_hard_failure :
    ∀ (cs cs2 : CryptoService) (st : EventStoreState) (evt : BaseEvent),
      evt.eventUuid.length ≥ 1 →
      eventPayloadBytes evt = [] →
      eventCreate ⟨false, some cs⟩ st (some evt) =
        .error "domain data is empty" ∧
      eventCreate ⟨false, some cs⟩ st (some evt) =
        eventCreate ⟨false, some cs2⟩ st (some evt) ∧
      stateAfter st (eventCreate ⟨false, some cs⟩ st (some evt)) = st ∧
      eventTotal (stateAfter st (eventCreate ⟨false, some cs⟩ st (some evt))) =
        eventTotal st := by
  intro cs cs2 st evt hu hb
  have hguard : ¬ (evt.eventUuid.length < 1) := by omega
  have h1 : (BaseEventToDbEvent evt).dataBytes = [] := hb
  simp [eventCreate, encryptDomainData, hguard, h1, stateAfter]

/-- C5 witness: the sample event with its payload bytes emptied, under
two distinct concrete ciphers. -/
theorem create_empty_payload_hard_failure_witness :
    eventCreate ⟨false, some addCipher⟩ ⟨[], true⟩
        (some { evtSample with domainEvtBytes := [] }) =
      .error "domain data is empty" ∧
    eventCreate ⟨false, some addCipher⟩ ⟨[], true⟩
        (some { evtSample with domainEvtBytes := [] }) =
      eventCreate ⟨false, some idCipher⟩ ⟨[], true⟩
        (some { evtSample with domainEvtBytes := [] }) ∧
    stateAfter ⟨[], true⟩ (eventCreate ⟨false, some addCipher⟩ ⟨[], true⟩
      (some { evtSample with domainEvtBytes := [] })) = ⟨[], true⟩ ∧
    eventTotal (stateAfter ⟨[], true⟩
      (eventCreate ⟨false, some addCipher⟩ ⟨[], true⟩
        (some { evtSample with domainEvtBytes := [] }))) =
      eventTotal ⟨[], true⟩ :=
  create_empty_payload_hard_failure addCipher idCipher ⟨[], true⟩
    { evtSample with domainEvtBytes := [] } (by decide) rfl

set_option maxRecDepth 16384 in
/-- C3: the UPDATE statement text of the command store contains a stray
closing parenthesis before WHERE, so it fails the parenthesis balance
check SQLite enforces and preparing it always fails: updating a valid
command on a writable store with a matching row returns an error
instead of succeeding (the event store statement is well-formed). -/
theorem commandUpdate_always_fails :
    parensBalanced commandUpdateQuery = false ∧
    parensBalanced eventUpdateQuery = true ∧
    commandUpdate ⟨false, none⟩ ⟨[BaseCommandToDbCommand cmdSample], true⟩
      (some cmdSample) = .error "SQL logic error: syntax error" ∧
    (commandUpdate ⟨false, none⟩ ⟨[BaseCommandToDbCommand cmdSample], true⟩
      (some cmdSample)).isOk = false := by
  have hpar : parensBalanced commandUpdateQuery = false := by decide
  refine ⟨hpar, by decide, ?_, ?_⟩ <;>
    simp [commandUpdate, cmdSample, hpar, Except.isOk] <;> decide

/-- C4: the source interpolates caller values into SQL text between two
quote characters with no escaping.  For the value `a'b` the statement
built by Get is the raw concatenation, and the SQLite lexer reads the
embedded literal back as just `a`: the executed statement does not
treat the caller's value as a literal datum. -/
theorem interpolated_value_not_literal :
    eventGetQuery ("a" ++ sq ++ "b") =
      "SELECT * FROM events WHERE uuid=" ++ sq ++ ("a" ++ sq ++ "b") ++ sq ++
        " LIMIT 1;" ∧
    lexedEmbeddedValue ("a" ++ sq ++ "b") " LIMIT 1;" = some "a" ∧
    ("a" : String) ≠ "a" ++ sq ++ "b" := by
  refine ⟨?_, by decide, by decide⟩
  decide

/-- C10 counterexample: Info does propagate query failures - on an
empty command store the `MAX(created_at)` scan fails (NULL into int64)
and Info returns an error rather than default values; on a store whose
table is missing, event Info likewise returns the query error. -/
theorem info_propagates_counterexample :
    (commandInfo "p" ⟨[], true⟩).isOk = false ∧
    (eventInfo "p" ⟨[], false⟩).isOk = false := by
  constructor <;> rfl

/-- C10 amended: Total swallows query failures into a zero count for
both stores, but Info propagates them as errors; on an empty store the
event Info succeeds with a zero last-created timestamp (COALESCE),
while the command Info fails because the maximum over no rows is NULL. -/
theorem total_swallows_info_propagates :
    ∀ (p : String) (rowsE : List DbEvent) (rowsC : List DbCommand),
      eventTotal ⟨rowsE, false⟩ = 0 ∧
      (eventInfo p ⟨rowsE, false⟩).isOk = false ∧
      commandTotal ⟨rowsC, false⟩ = 0 ∧
      (commandInfo p ⟨rowsC, false⟩).isOk = false ∧
      eventInfo p ⟨[], true⟩ =
        .ok { storeType := "sqlite", lastItemCreatedAt := 0,
              numItems := 0, connectionInfo := p } ∧
      (commandInfo "q" ⟨[], true⟩).isOk = false := by
  intro p rowsE rowsC
  refine ⟨rfl, rfl, rfl, rfl, ?_, rfl⟩
  simp [eventInfo]

/-- Byte-list map swapping `[]` and `[49]` and fixing everything else:
an involution, so a cipher applying it in both directions has a
Decrypt that is a two-sided inverse of its Encrypt - yet it maps the
non-empty payload `[49]` to an empty ciphertext. -/
def swapCipherMap (bs : Bytes) : Bytes :=
  if bs = [] then [49] else if bs = [49] then [] else bs

/-- The cipher built from `swapCipherMap`. -/
def swapCipher : CryptoService :=
  { encrypt := fun bs => .ok (swapCipherMap bs)
    decrypt := fun bs => .ok (swapCipherMap bs) }

theorem swapCipherMap_involutive :
    ∀ bs : Bytes, swapCipherMap (swapCipherMap bs) = bs := by
  intro bs
  by_cases h1 : bs = []
  · subst h1; decide
  · by_cases h2 : bs = [49]
    · subst h2; decide
    · simp [swapCipherMap, h1, h2]

/-- Sample persisted event row with payload `1` (byte 49). -/
def rowSwap : DbEvent :=
  { instanceId := 1
    uuid := "e-1"
    tenantUuid := "t-1"
    commandUuid := "c-1"
    domain := "d"
    aggregateUuid := "a-1"
    version := 1
    createdAt := 1000
    dataType := "T"
    dataBytes := [49] }

/-- Sample persisted event row with payload `A` (byte 65). -/
def rowA : DbEvent := { rowSwap with dataBytes := [65] }

/-- C6 counterexample: `swapCipher` has a Decrypt that is a two-sided
inverse of its Encrypt, yet the store round-trip fails on the
non-empty payload `[49]`: Encrypt yields empty ciphertext, the row
stores the empty hex text, and the decrypt step rejects it instead of
recovering the payload. -/
theorem encrypt_decrypt_roundtrip_counterexample :
    (∀ bs : Bytes, swapCipher.encrypt bs = .ok (swapCipherMap bs)) ∧
    (∀ bs : Bytes, swapCipher.decrypt (swapCipherMap bs) = .ok bs) ∧
    rowSwap.dataBytes ≠ [] ∧
    encryptDomainData (some swapCipher) rowSwap =
      .ok { rowSwap with dataBytes := [] } ∧
    decryptDomainData (some swapCipher) { rowSwap with dataBytes := [] } =
      .error "encrypted domain data is empty" := by
  refine ⟨fun bs => rfl,
    fun bs => congrArg Except.ok (swapCipherMap_involutive bs),
    by decide, by decide, by decide⟩

/-- C6 amended: for a non-empty payload and a cipher whose Decrypt
inverts its Encrypt, provided Encrypt yields a non-empty byte-valued
ciphertext on this payload, the store's encrypt step (encrypt then hex
encode) followed by its decrypt step (hex decode then decrypt)
recovers exactly the original row. -/
theorem encrypt_decrypt_roundtrip :
    ∀ (cs : CryptoService) (r : DbEvent) (cb : Bytes),
      r.dataBytes ≠ [] →
      cs.encrypt r.dataBytes = .ok cb →
      cb ≠ [] →
      (∀ b ∈ cb, b < 256) →
      cs.decrypt cb = .ok r.dataBytes →
      encryptDomainData (some cs) r = .ok { r with dataBytes := hexEncode cb } ∧
      decryptDomainData (some cs) { r with dataBytes := hexEncode cb } =
        .ok r := by
  intro cs r cb hne henc hcbne hlt hdec
  have hlen : ¬ (r.dataBytes.length < 1) := by
    cases hr : r.dataBytes with
    | nil => exact absurd hr hne
    | cons a l => simp
  have hcblen : ¬ (cb.length < 1) := by
    cases hcb : cb with
    | nil => exact absurd hcb hcbne
    | cons a l => simp
  have hdecd : hexDecode (hexEncode cb) = some cb := hexDecode_hexEncode hlt
  constructor
  · simp [encryptDomainData, hlen, henc]
  · simp [decryptDomainData, hdecd, hcblen, hdec]

/-- C6 witness for the amended round-trip: the identity cipher on the
single-byte payload `A`. -/
theorem encrypt_decrypt_roundtrip_witness :
    encryptDomainData (some idCipher) rowA =
      .ok { rowA with dataBytes := hexEncode [65] } ∧
    decryptDomainData (some idCipher) { rowA with dataBytes := hexEncode [65] } =
      .ok rowA :=
  encrypt_decrypt_roundtrip idCipher rowA [65] (by decide) rfl (by decide)
    (by decide) rfl

/-- Event record carrying both stale serialized bytes (`old`) and a
structured payload object whose canonical serialization is `new`. -/
def evtStale : BaseEvent :=
  { evtSample with
    domainEvtBytes := [111, 108, 100]
    domainEvt := some { serialized := [110, 101, 119], typeName := "T" } }

/-- Round-trip of the serialization bridge on an event record with no
structured payload object. -/
theorem roundtrip_event (evt : BaseEvent) (h : evt.domainEvt = none) :
    DbEventToBaseEvent (BaseEventToDbEvent evt) = evt := by
  cases evt
  simp_all [DbEventToBaseEvent, BaseEventToDbEvent, eventPayloadBytes,
    eventPayloadType]

/-- C1 counterexample: a valid record (non-empty unique identifier) on
a writable cipher-free store for which Create followed by Get by that
identifier succeeds but returns different payload bytes than the record
that was passed to Create: the bridge re-serializes the structured
payload object, overriding the record's payload bytes field. -/
theorem create_get_roundtrip_counterexample :
    evtStale.eventUuid.length ≥ 1 ∧
    eventCreate ⟨false, none⟩ ⟨[], true⟩ (some evtStale) =
      .ok ⟨[BaseEventToDbEvent evtStale], true⟩ ∧
    eventGet ⟨false, none⟩ ⟨[BaseEventToDbEvent evtStale], true⟩
        evtStale.eventUuid =
      .ok (some (DbEventToBaseEvent (BaseEventToDbEvent evtStale))) ∧
    (DbEventToBaseEvent (BaseEventToDbEvent evtStale)).domainEvtBytes =
      [110, 101, 119] ∧
    evtStale.domainEvtBytes = [111, 108, 100] ∧
    ([110, 101, 119] : Bytes) ≠ [111, 108, 100] := by
  refine ⟨by decide, by decide, by decide, by decide, rfl, by decide⟩

/-- C1 amended: for a valid record whose structured payload object is
unset, whose non-empty unique identifier contains no quote character
and is not already present in the store, Create followed by Get by
that identifier on a writable cipher-free store returns the created
record with every field equal (for commands, every field the claim
enumerates: payload bytes, type name and all scalar columns). -/
theorem create_get_roundtrip :
    ∀ (st : EventStoreState) (evt : BaseEvent)
      (stC : CommandStoreState) (cmd : BaseCommand),
      st.schemaReady = true →
      evt.eventUuid.length ≥ 1 →
      strHasQuote evt.eventUuid = false →
      (∀ r ∈ st.rows, r.uuid ≠ evt.eventUuid) →
      evt.domainEvt = none →
      stC.schemaReady = true →
      cmd.commandUuid.length ≥ 1 →
      strHasQuote cmd.commandUuid = false →
      (∀ r ∈ stC.rows, r.uuid ≠ cmd.commandUuid) →
      cmd.domainCmd = none →
      (∃ st2, eventCreate ⟨false, none⟩ st (some evt) = .ok st2 ∧
        eventGet ⟨false, none⟩ st2 evt.eventUuid = .ok (some evt)) ∧
      (∃ stC2 c2, commandCreate ⟨false, none⟩ stC (some cmd) = .ok stC2 ∧
        commandGet stC2 cmd.commandUuid = .ok (some c2) ∧
        c2.domainCmdBytes = cmd.domainCmdBytes ∧
        c2.domainCmdName = cmd.domainCmdName ∧
        c2.instanceId = cmd.instanceId ∧
        c2.tenantUuid = cmd.tenantUuid ∧
        c2.commandUuid = cmd.commandUuid ∧
        c2.domain = cmd.domain ∧
        c2.createdAt = cmd.createdAt) := by
  intro st evt stC cmd hsch hul hq hfresh hobj hschC hulC hqC hfreshC hobjC
  have hguard : ¬ (evt.eventUuid.length < 1) := by omega
  have hguardC : ¬ (cmd.commandUuid.length < 1) := by omega
  have hnz : ¬ (evt.eventUuid.length = 0) := by omega
  have hnzC : ¬ (cmd.commandUuid.length = 0) := by omega
  constructor
  · refine ⟨{ st with rows := st.rows ++ [BaseEventToDbEvent evt] }, ?_, ?_⟩
    · simp [eventCreate, hguard, hsch]
    · have hnone : st.rows.find? (fun r => r.uuid == evt.eventUuid) = none :=
        List.find?_eq_none.mpr (fun x hx => by
          simpa using hfresh x hx)
      have hfind : (st.rows ++ [BaseEventToDbEvent evt]).find?
          (fun r => r.uuid == evt.eventUuid) = some (BaseEventToDbEvent evt) := by
        rw [find_append_none _ hnone]
        have huu : (BaseEventToDbEvent evt).uuid = evt.eventUuid := rfl
        simp [List.find?_cons, huu]
      simp only [eventGet, hsch, hnz, hq, hfind]
      simp [roundtrip_event evt hobj]
  · refine ⟨{ stC with rows := stC.rows ++ [BaseCommandToDbCommand cmd] },
      DbCommandToBaseCommand (BaseCommandToDbCommand cmd), ?_, ?_, ?_, ?_,
      ?_, ?_, ?_, ?_, ?_⟩
    · simp [commandCreate, hguardC, hschC]
    · have hnone : stC.rows.find? (fun r => r.uuid == cmd.commandUuid) = none :=
        List.find?_eq_none.mpr (fun x hx => by
          simpa using hfreshC x hx)
      have hfind : (stC.rows ++ [BaseCommandToDbCommand cmd]).find?
          (fun r => r.uuid == cmd.commandUuid) =
          some (BaseCommandToDbCommand cmd) := by
        rw [find_append_none _ hnone]
        have huu : (BaseCommandToDbCommand cmd).uuid = cmd.commandUuid := rfl
        simp [List.find?_cons, huu]
      simp only [commandGet, hschC, hnzC, hqC, hfind]
      simp
    all_goals
      simp [DbCommandToBaseCommand, BaseCommandToDbCommand,
        commandPayloadBytes, commandPayloadType, hobjC]

/-- C1 witness: the sample records on empty writable stores. -/
theorem create_get_roundtrip_witness :
    (∃ st2, eventCreate ⟨false, none⟩ ⟨[], true⟩ (some evtSample) = .ok st2 ∧
      eventGet ⟨false, none⟩ st2 evtSample.eventUuid = .ok (some evtSample)) ∧
    (∃ stC2 c2, commandCreate ⟨false, none⟩ ⟨[], true⟩ (some cmdSample) =
        .ok stC2 ∧
      commandGet stC2 cmdSample.commandUuid = .ok (some c2) ∧
      c2.domainCmdBytes = cmdSample.domainCmdBytes ∧
      c2.domainCmdName = cmdSample.domainCmdName ∧
      c2.instanceId = cmdSample.instanceId ∧
      c2.tenantUuid = cmdSample.tenantUuid ∧
      c2.commandUuid = cmdSample.commandUuid ∧
      c2.domain = cmdSample.domain ∧
      c2.createdAt = cmdSample.createdAt) :=
  create_get_roundtrip ⟨[], true⟩ evtSample ⟨[], true⟩ cmdSample rfl
    (by decide) (by decide) (by simp) rfl rfl (by decide) (by decide)
    (by simp) rfl

/-- C2 counterexample: with a cipher configured on the command store,
Create inserts the plaintext payload unchanged - the cipher is never
invoked, although encrypting would have stored the hex-encoded
ciphertext `[52, 50]` instead of the plaintext `[65]`. -/
theorem command_cipher_never_applied :
    commandCreate ⟨false, some addCipher⟩ ⟨[], true⟩ (some cmdSample) =
      .ok ⟨[BaseCommandToDbCommand cmdSample], true⟩ ∧
    (BaseCommandToDbCommand cmdSample).dataBytes = [65] ∧
    addCipher.encrypt [65] = .ok [66] ∧
    hexEncode [66] = [52, 50] ∧
    ([65] : Bytes) ≠ [52, 50] := by
  refine ⟨by decide, rfl, rfl, by decide, by decide⟩

/-- C2 amended: the event store encrypts on Create (storing the
hex-encoded ciphertext) and decrypts on Get once a cipher is
configured, while the command store never consults the cipher: its
Create and Update results are identical under any configured cipher
and under none. -/
theorem cipher_applies_to_events_only :
    ∀ (cs : CryptoService) (st : EventStoreState) (evt : BaseEvent) (cb : Bytes)
      (stC : CommandStoreState) (cmd : Option BaseCommand)
      (cs2 : Option CryptoService),
      st.schemaReady = true →
      evt.eventUuid.length ≥ 1 →
      eventPayloadBytes evt ≠ [] →
      cs.encrypt (eventPayloadBytes evt) = .ok cb →
      eventCreate ⟨false, some cs⟩ st (some evt) =
        .ok { st with rows := st.rows ++
          [{ BaseEventToDbEvent evt with dataBytes := hexEncode cb }] } ∧
      (∀ (st2 : EventStoreState) (r r2 : DbEvent),
        st2.schemaReady = true → st2.rows = [r] →
        r.uuid.length ≥ 1 → strHasQuote r.uuid = false →
        decryptDomainData (some cs) r = .ok r2 →
        eventGet ⟨false, some cs⟩ st2 r.uuid =
          .ok (some (DbEventToBaseEvent r2))) ∧
      commandCreate ⟨false, some cs⟩ stC cmd =
        commandCreate ⟨false, cs2⟩ stC cmd ∧
      commandUpdate ⟨false, some cs⟩ stC cmd =
        commandUpdate ⟨false, cs2⟩ stC cmd := by
  intro cs st evt cb stC cmd cs2 hsch hul hne henc
  have hguard : ¬ (evt.eventUuid.length < 1) := by omega
  have hlen : ¬ ((BaseEventToDbEvent evt).dataBytes.length < 1) := by
    show ¬ ((eventPayloadBytes evt).length < 1)
    cases hr : eventPayloadBytes evt with
    | nil => exact absurd hr hne
    | cons a l => simp
  refine ⟨?_, ?_, rfl, rfl⟩
  · have hencr : cs.encrypt (BaseEventToDbEvent evt).dataBytes = .ok cb := henc
    simp [eventCreate, hguard, hsch, encryptDomainData, hlen, hencr]
  · intro st2 r r2 h2 hrows hru hrq hdec
    have hnz : ¬ (r.uuid.length = 0) := by omega
    simp [eventGet, h2, hrows, hnz, hrq, hdec]

/-- C2 witness: the add-one cipher on the sample event and command. -/
theorem cipher_applies_to_events_only_witness :
    eventCreate ⟨false, some addCipher⟩ ⟨[], true⟩ (some evtSample) =
      .ok ⟨[{ BaseEventToDbEvent evtSample with dataBytes := hexEncode [66] }],
        true⟩ ∧
    (∀ (st2 : EventStoreState) (r r2 : DbEvent),
      st2.schemaReady = true → st2.rows = [r] →
      r.uuid.length ≥ 1 → strHasQuote r.uuid = false →
      decryptDomainData (some addCipher) r = .ok r2 →
      eventGet ⟨false, some addCipher⟩ st2 r.uuid =
        .ok (some (DbEventToBaseEvent r2))) ∧
    commandCreate ⟨false, some addCipher⟩ ⟨[], true⟩ (some cmdSample) =
      commandCreate ⟨false, none⟩ ⟨[], true⟩ (some cmdSample) ∧
    commandUpdate ⟨false, some addCipher⟩ ⟨[], true⟩ (some cmdSample) =
      commandUpdate ⟨false, none⟩ ⟨[], true⟩ (some cmdSample) :=
  cipher_applies_to_events_only addCipher ⟨[], true⟩ evtSample [66]
    ⟨[], true⟩ (some cmdSample) none rfl (by decide) (by decide) rfl

/-- C9: zero matching rows is not an error: a Get whose (quote-free)
uuid filter matches no row returns an empty result without error for
both stores, and a List whose filters match no row returns the empty
page with total zero and no error (for any pagination that yields a
well-formed statement and the modelled order columns). -/
theorem notfound_not_error :
    ∀ (opts : StoreOptions) (stE : EventStoreState) (stC : CommandStoreState)
      (u : String) (oE : EventListOptions) (oC : CommandListOptions),
      stE.schemaReady = true → stC.schemaReady = true →
      u.length ≥ 1 → strHasQuote u = false →
      (∀ r ∈ stE.rows, r.uuid ≠ u) →
      (∀ r ∈ stC.rows, r.uuid ≠ u) →
      eventListHasQuote oE = false → commandListHasQuote oC = false →
      ¬ (oE.limit < 0 ∧ 0 ≤ oE.offset) → ¬ (oC.limit < 0 ∧ 0 ≤ oC.offset) →
      (oE.orderBy = "" ∨ oE.orderBy = "created_at") →
      (oC.orderBy = "" ∨ oC.orderBy = "created_at") →
      stE.rows.filter (eventMatches oE) = [] →
      stC.rows.filter (commandMatches oC) = [] →
      eventGet opts stE u = .ok none ∧
      commandGet stC u = .ok none ∧
      eventList opts stE oE = .ok ([], 0) ∧
      commandList stC oC = .ok ([], 0) := by
  intro opts stE stC u oE oC hE hC hul hq hfreshE hfreshC hQE hQC hLimE hLimC
    hOrdE hOrdC hfiltE hfiltC
  obtain ⟨ro, crypto⟩ := opts
  have hnz : ¬ (u.length = 0) := by omega
  refine ⟨?_, ?_, ?_, ?_⟩
  · have hnone : stE.rows.find? (fun r => r.uuid == u) = none :=
      List.find?_eq_none.mpr (fun x hx => by simpa using hfreshE x hx)
    cases crypto <;> simp [eventGet, hE, hnz, hq, hnone]
  · have hnone : stC.rows.find? (fun r => r.uuid == u) = none :=
      List.find?_eq_none.mpr (fun x hx => by simpa using hfreshC x hx)
    simp [commandGet, hC, hnz, hq, hnone]
  · rcases hOrdE with h | h <;>
      cases crypto <;>
        simp [eventList, hE, hQE, hLimE, hfiltE, h, List.mergeSort_nil,
          List.mapM.loop, pure, Except.pure]
  · rcases hOrdC with h | h <;>
      simp [commandList, hC, hQC, hLimC, hfiltC, h, List.mergeSort_nil]

/-- C9 witness: empty stores, the uuid `zz` and default list options. -/
theorem notfound_not_error_witness :
    eventGet ⟨false, none⟩ ⟨[], true⟩ "zz" = .ok none ∧
    commandGet ⟨[], true⟩ "zz" = .ok none ∧
    eventList ⟨false, none⟩ ⟨[], true⟩ {} = .ok ([], 0) ∧
    commandList ⟨[], true⟩ {} = .ok ([], 0) :=
  notfound_not_error ⟨false, none⟩ ⟨[], true⟩ ⟨[], true⟩ "zz" {} {}
    rfl rfl (by decide) (by decide) (by simp) (by simp) rfl rfl
    (by decide) (by decide) (Or.inr rfl) (Or.inr rfl) rfl rfl

/-- C8: List with no filter options uses the source defaults (limit
100, offset 0, order by creation timestamp ascending) and returns, for
both stores, the first hundred rows of a creation-timestamp-ascending
permutation of all rows (all of them when at most a hundred exist)
together with a total equal to the full matching count ignoring
pagination; a negative limit or offset suppresses the corresponding
statement fragment, a non-negative one emits it. -/
theorem list_default_pagination :
    ∀ (stE : EventStoreState) (stC : CommandStoreState),
      stE.schemaReady = true → stC.schemaReady = true →
      ({} : EventListOptions).limit = 100 ∧
      ({} : EventListOptions).offset = 0 ∧
      ({} : EventListOptions).orderBy = "created_at" ∧
      ({} : EventListOptions).ascending = true ∧
      (∃ sortedE : List DbEvent, sortedE.Perm stE.rows ∧
        sortedE.Pairwise (fun a b => a.createdAt ≤ b.createdAt) ∧
        (stE.rows.length ≤ 100 → sortedE.take 100 = sortedE) ∧
        eventList ⟨false, none⟩ stE {} =
          .ok ((sortedE.take 100).map DbEventToBaseEvent, stE.rows.length)) ∧
      (∃ sortedC : List DbCommand, sortedC.Perm stC.rows ∧
        sortedC.Pairwise (fun a b => a.createdAt ≤ b.createdAt) ∧
        (stC.rows.length ≤ 100 → sortedC.take 100 = sortedC) ∧
        commandList stC {} =
          .ok ((sortedC.take 100).map DbCommandToBaseCommand,
            stC.rows.length)) ∧
      (∀ l : Int, l < 0 → listLimitSQL l = "") ∧
      (∀ o : Int, o < 0 → listOffsetSQL o = "") ∧
      (∀ l : Int, 0 ≤ l → listLimitSQL l = " LIMIT " ++ toString l) ∧
      (∀ o : Int, 0 ≤ o → listOffsetSQL o = " OFFSET " ++ toString o) := by
  intro stE stC hE hC
  have hallE : stE.rows.filter (eventMatches ({} : EventListOptions)) =
      stE.rows :=
    List.filter_eq_self.mpr (fun r _ => by simp [eventMatches])
  have hallC : stC.rows.filter (commandMatches ({} : CommandListOptions)) =
      stC.rows :=
    List.filter_eq_self.mpr (fun r _ => by simp [commandMatches])
  have hq1 : eventListHasQuote ({} : EventListOptions) = false := rfl
  have hq2 : commandListHasQuote ({} : CommandListOptions) = false := rfl
  have hca : ("created_at" = "") = False := by simp
  refine ⟨rfl, rfl, rfl, rfl, ?_, ?_, ?_, ?_, ?_, ?_⟩
  · refine ⟨stE.rows.mergeSort (fun a b => a.createdAt ≤ b.createdAt),
      List.mergeSort_perm stE.rows _, ?_, ?_, ?_⟩
    · have hsorted : (stE.rows.mergeSort
          (fun a b => decide (a.createdAt ≤ b.createdAt))).Pairwise
          (fun a b => decide (a.createdAt ≤ b.createdAt) = true) :=
        @List.sorted_mergeSort _
          (fun a b => decide (a.createdAt ≤ b.createdAt))
          (fun a b c hab hbc => decide_eq_true
            (le_trans (of_decide_eq_true hab) (of_decide_eq_true hbc)))
          (fun a b => by
            rcases Int.le_total a.createdAt b.createdAt with h | h <;> simp [h])
          stE.rows
      exact hsorted.imp (fun hab => of_decide_eq_true hab)
    · intro h
      exact List.take_of_length_le
        (by rw [(List.mergeSort_perm stE.rows _).length_eq]; exact h)
    · simp [eventList, hE, hallE, hq1, hca]
  · refine ⟨stC.rows.mergeSort (fun a b => a.createdAt ≤ b.createdAt),
      List.mergeSort_perm stC.rows _, ?_, ?_, ?_⟩
    · have hsorted : (stC.rows.mergeSort
          (fun a b => decide (a.createdAt ≤ b.createdAt))).Pairwise
          (fun a b => decide (a.createdAt ≤ b.createdAt) = true) :=
        @List.sorted_mergeSort _
          (fun a b => decide (a.createdAt ≤ b.createdAt))
          (fun a b c hab hbc => decide_eq_true
            (le_trans (of_decide_eq_true hab) (of_decide_eq_true hbc)))
          (fun a b => by
            rcases Int.le_total a.createdAt b.createdAt with h | h <;> simp [h])
          stC.rows
      exact hsorted.imp (fun hab => of_decide_eq_true hab)
    · intro h
      exact List.take_of_length_le
        (by rw [(List.mergeSort_perm stC.rows _).length_eq]; exact h)
    · simp [commandList, hC, hallC, hq2, hca]
  · intro l hl
    have h : ¬ (l ≥ 0) := by omega
    simp [listLimitSQL, h]
  · intro o ho
    have h : ¬ (o ≥ 0) := by omega
    simp [listOffsetSQL, h]
  · intro l hl
    simp [listLimitSQL, hl]
  · intro o ho
    simp [listOffsetSQL, ho]

/-- C8 witness: two empty stores. -/
theorem list_default_pagination_witness :
    ({} : EventListOptions).limit = 100 ∧
    ({} : EventListOptions).offset = 0 ∧
    ({} : EventListOptions).orderBy = "created_at" ∧
    ({} : EventListOptions).ascending = true ∧
    (∃ sortedE : List DbEvent,
      sortedE.Perm (⟨[], true⟩ : EventStoreState).rows ∧
      sortedE.Pairwise (fun a b => a.createdAt ≤ b.createdAt) ∧
      ((⟨[], true⟩ : EventStoreState).rows.length ≤ 100 →
        sortedE.take 100 = sortedE) ∧
      eventList ⟨false, none⟩ ⟨[], true⟩ {} =
        .ok ((sortedE.take 100).map DbEventToBaseEvent,
          (⟨[], true⟩ : EventStoreState).rows.length)) ∧
    (∃ sortedC : List DbCommand,
      sortedC.Perm (⟨[], true⟩ : CommandStoreState).rows ∧
      sortedC.Pairwise (fun a b => a.createdAt ≤ b.createdAt) ∧
      ((⟨[], true⟩ : CommandStoreState).rows.length ≤ 100 →
        sortedC.take 100 = sortedC) ∧
      commandList ⟨[], true⟩ {} =
        .ok ((sortedC.take 100).map DbCommandToBaseCommand,
          (⟨[], true⟩ : CommandStoreState).rows.length)) ∧
    (∀ l : Int, l < 0 → listLimitSQL l = "") ∧
    (∀ o : Int, o < 0 → listOffsetSQL o = "") ∧
    (∀ l : Int, 0 ≤ l → listLimitSQL l = " LIMIT " ++ toString l) ∧
    (∀ o : Int, 0 ≤ o → listOffsetSQL o = " OFFSET " ++ toString o) :=
  list_default_pagination ⟨[], true⟩ ⟨[], true⟩ rfl rfl

end CombyStoreSQLite
